import Mathlib

/-!
Verification of the zupport operational-dashboard server against its
natural-language specification.  The definitions below are a shallow
embedding of the JavaScript source (`server.js`, `src/index.js`):

* filesystem effects (`readdir`, `stat`) are passed in as explicit
  functions returning `Option`, `none` standing for a rejected promise;
* JS arrays become `List String`; a JS value that may be `null` becomes
  an `Option`;
* timestamps are naturals counting milliseconds since the epoch;
* a collector body that may throw is passed in as an `Except Unit` value
  and the source's `try/catch` becomes a `match` applying the catch
  branch's documented default.
-/

/-! ## JS string primitives

The JS string builtins the source uses (`toUpperCase`, `includes`,
`startsWith`, `endsWith`, `split`) and node's `path.join`, embedded
over `List Char` so they compute by kernel reduction. -/

/-- ASCII upper-casing of one character, as `toUpperCase` acts on the
ASCII range (the only range the repository's filters use). -/
def upChar (c : Char) : Char :=
  if 97 ≤ c.toNat ∧ c.toNat ≤ 122 then Char.ofNat (c.toNat - 32) else c

/-- JS `s.toUpperCase()` on ASCII text. -/
def jsToUpper (s : String) : String := String.mk (s.data.map upChar)

/-- Splits a character list at every `/`. -/
def splitSlash : List Char → List (List Char)
  | [] => [[]]
  | c :: rest =>
    match splitSlash rest with
    | [] => [[]]
    | cur :: parts => if c = '/' then [] :: cur :: parts else (c :: cur) :: parts

/-- Is the first character list a prefix of the second? -/
def charsPrefix : List Char → List Char → Bool
  | [], _ => true
  | a :: as, l =>
    match l with
    | [] => false
    | b :: bs => a = b && charsPrefix as bs

/-- JS `s.startsWith(pre)`. -/
def strStartsWith (s pre : String) : Bool := charsPrefix pre.data s.data

/-- JS `s.endsWith(suf)`. -/
def strEndsWith (s suf : String) : Bool :=
  charsPrefix suf.data.reverse s.data.reverse

/-- JS `hay.includes(needle)`: some start index of `hay` begins an
occurrence of `needle`. -/
def strContains (hay needle : String) : Bool :=
  (List.range (hay.data.length + 1)).any
    (fun i => charsPrefix needle.data (hay.data.drop i))

/-- POSIX `path.join(a, b)` for an absolute first argument, as node
resolves it: concatenate with a separator, split on `/`, drop empty and
`.` segments, let `..` pop the previous segment (excess `..` above the
root is dropped), and rebuild an absolute path. -/
def pathJoin (a b : String) : String :=
  let segs := splitSlash (a.data ++ '/' :: b.data)
  let stack := segs.foldl
    (fun st seg =>
      if seg = [] then st
      else if seg = ['.'] then st
      else if seg = ['.', '.'] then st.tail
      else seg :: st) []
  match stack with
  | [] => "/"
  | _ => String.mk (stack.reverse.foldl (fun acc s => acc ++ '/' :: s) [])

/-! ## Queue monitoring (server.js `getQueueStatus`, `queueConfigs`) -/

/-- Health tiers a monitored queue directory can be given.  `unknown` is
the tier used by the `catch` branch of `getQueueStatus`. -/
inductive QStatus where
  | healthy
  | tired
  | sick
  | dead
  | unknown
deriving DecidableEq, Repr

/-- The `thresholds` object of one `queueConfigs` entry: the `files`
array indices 0..2 and the `minutes` array indices 0..2. -/
structure Thresholds where
  files0 : Nat
  files1 : Nat
  files2 : Nat
  minutes0 : Nat
  minutes1 : Nat
  minutes2 : Nat
deriving DecidableEq, Repr

/-- One entry of the `queueConfigs` list: a monitored directory path and
its thresholds. -/
structure QueueConfig where
  path : String
  thresholds : Thresholds
deriving DecidableEq, Repr

/-- The `queueConfigs` constant of server.js: the fixed list of
monitored directories with their file-count and age thresholds. -/
def queueConfigs : List QueueConfig :=
  [ ⟨"/zpdata/agents/zippi/outgoing", ⟨100, 500, 1000, 10, 15, 20⟩⟩,
    ⟨"/zpdata/agents/shipit/outgoing", ⟨100, 500, 1000, 10, 15, 20⟩⟩,
    ⟨"/zpdata/agents/faxit/outgoing", ⟨100, 500, 1000, 10, 15, 20⟩⟩,
    ⟨"/zpdata/incoming/outboundMessage", ⟨100, 500, 1000, 3, 6, 10⟩⟩,
    ⟨"/zpdata/incoming/captured", ⟨100, 500, 1000, 3, 6, 10⟩⟩,
    ⟨"/zpdata/incoming/outgoing", ⟨100, 500, 1000, 3, 6, 10⟩⟩,
    ⟨"/zpdata/incoming/routed", ⟨100, 500, 1000, 3, 6, 10⟩⟩,
    ⟨"/zpdata/incoming/sftp", ⟨100, 500, 1000, 3, 6, 10⟩⟩,
    ⟨"/zpdata/incoming/smtp", ⟨100, 500, 1000, 3, 6, 10⟩⟩,
    ⟨"/zpdata/incoming/venali", ⟨100, 500, 1000, 3, 6, 10⟩⟩,
    ⟨"/zpdata/incoming/zpaper", ⟨100, 500, 1000, 3, 6, 10⟩⟩,
    ⟨"/zpdata/agents/emailToFaxAgent/errors", ⟨2, 5, 10, 1, 2, 3⟩⟩,
    ⟨"/zpdata/agents/faxOutAgent/errors", ⟨2, 5, 10, 1, 3, 0⟩⟩,
    ⟨"/zpdata/agents/outboundMessageAgent/errors", ⟨2, 5, 10, 1, 3, 0⟩⟩,
    ⟨"/zpdata/agents/routeAgent/errors", ⟨2, 5, 10, 1, 3, 0⟩⟩,
    ⟨"/zpdata/agents/routeAgentSFTP/errors", ⟨2, 5, 10, 1, 3, 0⟩⟩,
    ⟨"/zpdata/incoming/sftp/errors", ⟨2, 5, 10, 1, 3, 0⟩⟩,
    ⟨"/zpdata/logs/errors", ⟨2, 5, 10, 1, 3, 0⟩⟩,
    ⟨"/zpdata/cache", ⟨2, 5, 10, 60, 0, 0⟩⟩,
    ⟨"/zpdata/queues/S3/errors", ⟨0, 0, 0, 1, 3, 5⟩⟩ ]

/-- The status expression of `getQueueStatus` (server.js lines 549-552):
`counts.total === 0 ? 'healthy' : counts.total >= thresholds.files[2] ?
'dead' : ... >= files[1] ? 'sick' : ... >= files[0] ? 'tired' :
'healthy'`. -/
def queueHealthStatus (total f0 f1 f2 : Nat) : QStatus :=
  if total = 0 then .healthy
  else if total ≥ f2 then .dead
  else if total ≥ f1 then .sick
  else if total ≥ f0 then .tired
  else .healthy

/-- Modelled from the spec's words, for comparison with the source's
`queueHealthStatus`: "classify as `healthy` if `n == 0`, `dead` if
`n >= t3`, `sick` if `n >= t2`, `tired` if `n >= t1`, else `healthy`". -/
def specHealthTier (n t1 t2 t3 : Nat) : QStatus :=
  if n = 0 then .healthy
  else if n ≥ t3 then .dead
  else if n ≥ t2 then .sick
  else if n ≥ t1 then .tired
  else .healthy

/-- Severity rank of a health tier under the spec ordering
`healthy < tired < sick < dead`.  `unknown` is never produced by the
classifier, so its rank is irrelevant; it is given 0. -/
def sevRank : QStatus → Nat
  | .healthy => 0
  | .tired => 1
  | .sick => 2
  | .dead => 3
  | .unknown => 0

/-- JS `value !== null` on a value embedded into `Option`: arrays are
always non-null, so `some files !== none` is how server.js's
`exists: files !== null` reads in this embedding. -/
def jsNotNull (v : Option (List String)) : Bool :=
  match v with
  | none => false
  | some _ => true

/-- The `oldestFile` record built inside `getQueueStatus`: file name,
its `ctime` (ms since epoch) and the XML/PDF tag. -/
structure OldestFile where
  name : String
  created : Nat
  ftype : String
deriving DecidableEq, Repr

/-- Builds the `oldestFile` object pushed by the loop: `{ name, created,
type: file.endsWith('.xml') ? 'XML' : 'PDF' }`. -/
def mkOldest (file : String) (ct : Nat) : OldestFile :=
  ⟨file, ct, if strEndsWith file ".xml" then "XML" else "PDF"⟩

/-- One iteration of the oldest-file loop of `getQueueStatus`
(server.js lines 523-538): a failing `stat` is skipped by the
`catch { continue }`; otherwise the file replaces the best-so-far when
its `ctime` is strictly smaller (`!oldestTime || stats.ctime <
oldestTime` — a `Date` object is never falsy, so `!oldestTime` is
exactly "no best yet"). -/
def stepOldest (f : String) (ctOpt : Option Nat) (acc : Option OldestFile) :
    Option OldestFile :=
  match ctOpt, acc with
  | none, _ => acc
  | some ct, none => some (mkOldest f ct)
  | some ct, some o => if ct < o.created then some (mkOldest f ct) else acc

/-- The oldest-file loop of `getQueueStatus` (server.js lines 522-539):
walks the matched files in order, applying `stepOldest` for each. -/
def findOldestAux (stat : String → Option Nat) (qpath : String)
    (acc : Option OldestFile) : List String → Option OldestFile
  | [] => acc
  | f :: rest =>
    findOldestAux stat qpath (stepOldest f (stat (pathJoin qpath f)) acc) rest

/-- `getQueueStatus`'s oldest-file computation: the loop runs only when
`files.length > 0` (the result is `null` otherwise either way). -/
def findOldest (stat : String → Option Nat) (qpath : String)
    (files : List String) : Option OldestFile :=
  if files.length > 0 then findOldestAux stat qpath none files else none

/-- One element of the `queues` array returned by `getQueueStatus`. -/
structure QueueRecord where
  path : String
  qexists : Bool
  countsXml : Nat
  countsPdf : Nat
  countsTotal : Nat
  oldestFile : Option OldestFile
  thresholds : Thresholds
  status : QStatus
deriving DecidableEq, Repr

/-- The body of `getQueueStatus`'s per-queue iteration (server.js lines
513-561), on its normal (non-throwing) path.  `readdir` returning
`none` models a rejected `fsp.readdir`, absorbed by `.catch(() => [])`;
`stat` returning `none` models a rejected `fsp.stat`. -/
def processQueue (cfg : QueueConfig) (readdir : String → Option (List String))
    (stat : String → Option Nat) : QueueRecord :=
  let allFiles := (readdir cfg.path).getD []
  let xmlFiles := allFiles.filter (fun f => strEndsWith f ".xml")
  let pdfFiles := allFiles.filter (fun f => strEndsWith f ".pdf")
  let files := xmlFiles ++ pdfFiles
  let oldestFile := findOldest stat cfg.path files
  { path := cfg.path,
    qexists := jsNotNull (some files),
    countsXml := xmlFiles.length,
    countsPdf := pdfFiles.length,
    countsTotal := files.length,
    oldestFile := oldestFile,
    thresholds := cfg.thresholds,
    status := queueHealthStatus files.length cfg.thresholds.files0
      cfg.thresholds.files1 cfg.thresholds.files2 }

/-- The running `totals` object of `getQueueStatus`: initialised to
`{ xml: 0, pdf: 0 }` and only ever incremented at those two keys. -/
structure Totals where
  xml : Nat
  pdf : Nat
deriving DecidableEq, Repr

/-- JS property access on the `totals` object literal: only the keys
`xml` and `pdf` exist, any other key reads `undefined` (`none`). -/
def totalsLookup (t : Totals) (key : String) : Option Nat :=
  if key = "xml" then some t.xml
  else if key = "pdf" then some t.pdf
  else none

/-- The value returned by `getQueueStatus`. -/
structure QueueStatusResult where
  queues : List QueueRecord
  totals : Totals
deriving DecidableEq, Repr

/-- `getQueueStatus` (server.js lines 508-574): processes every
configured queue and accumulates per-category totals. -/
def getQueueStatus (cfgs : List QueueConfig)
    (readdir : String → Option (List String)) (stat : String → Option Nat) :
    QueueStatusResult :=
  let queues := cfgs.map (fun c => processQueue c readdir stat)
  let totals := queues.foldl
    (fun t q => ⟨t.xml + q.countsXml, t.pdf + q.countsPdf⟩) ⟨0, 0⟩
  ⟨queues, totals⟩

/-- `formatAge` (server.js lines 980-990) on millisecond timestamps:
`diff = now - date`, then minutes, hours and days by integer division,
rendered in the largest non-zero unit. -/
def formatAge (nowMs createdMs : Nat) : String :=
  let diff := nowMs - createdMs
  let minutes := diff / 60000
  let hours := minutes / 60
  let days := hours / 24
  if days > 0 then toString days ++ "d"
  else if hours > 0 then toString hours ++ "h"
  else toString minutes ++ "m"

/-! ## Log tail streaming (server.js `wss.on('connection')`, lines 930-963) -/

/-- Modelled from the spec's words, for comparison with the source's
filter: containment of the filter token "under case-insensitive
comparison" — both sides upper-cased before the substring test. -/
def specContainsCaseInsensitive (hay needle : String) : Bool :=
  strContains (jsToUpper hay) (jsToUpper needle)

/-- The tail handler's per-line filter (server.js line 947): the level
query parameter is upper-cased once (`params.get('level')?.toUpperCase()`)
and a line is sent when `!logLevel || data.includes(logLevel)`.  An
absent parameter is `none`; an empty upper-cased filter is falsy in JS,
so it also forwards everything. -/
def shouldForward (levelParam : Option String) (data : String) : Bool :=
  match levelParam.map jsToUpper with
  | none => true
  | some lvl => if lvl = "" then true else strContains data lvl

/-- JS `a || b` for an optional string `a` and string default `b`:
`undefined` and the empty string fall through to `b`. -/
def jsOrStr (a : Option String) (b : String) : String :=
  match a with
  | none => b
  | some s => if s = "" then b else s

/-- One message sent over the tail WebSocket (the wall-clock
`timestamp` field is omitted from the embedding). -/
structure TailMsg where
  message : String
  level : String
deriving DecidableEq, Repr

/-- The messages a tail session sends for a sequence of appended lines:
each line passes the level filter or is dropped; a sent message carries
the line text and the upper-cased level (or the sentinel `"ALL"`). -/
def tailMessages (levelParam : Option String) (lines : List String) :
    List TailMsg :=
  lines.filterMap (fun data =>
    if shouldForward levelParam data then
      some ⟨data, jsOrStr (levelParam.map jsToUpper) "ALL"⟩
    else none)

/-! ## File Access Gateway (`POST /edit-file`) -/

/-- Outcome of an edit-file request.  `written p c` records that the
handler reached `fs.writeFile` with resolved path `p` and content `c`. -/
inductive EditResult where
  | badRequest
  | accessDenied
  | written (fullPath : String) (content : String)
deriving DecidableEq, Repr

/-- The server.js `POST /edit-file` handler (lines 106-120 and the
identical router copy at 302-316): validates presence of both fields
(`!filePath` is also true for an empty string, `content === undefined`
only for a missing content), joins the path against the editable root
and writes — with no containment check. -/
def serverEditFile (editableDir : String) (filePath content : Option String) :
    EditResult :=
  match filePath, content with
  | none, _ => .badRequest
  | some "", _ => .badRequest
  | some _, none => .badRequest
  | some fp, some c => .written (pathJoin editableDir fp) c

/-- The src/index.js `POST /edit-file` handler (lines 211-231): same
validation, then a raw string-prefix test `fullPath.startsWith(editableDir)`
on the joined path before writing. -/
def indexEditFile (editableDir : String) (filePath content : Option String) :
    EditResult :=
  match filePath, content with
  | none, _ => .badRequest
  | some "", _ => .badRequest
  | some _, none => .badRequest
  | some fp, some c =>
    let fullPath := pathJoin editableDir fp
    if !(strStartsWith fullPath editableDir) then .accessDenied
    else .written fullPath c

/-- Modelled from the spec's words: a resolved absolute path is
contained within `root` when it is `root` itself or lies strictly below
it (extends `root` at a path-separator boundary). -/
def specResolvedWithin (root p : String) : Bool :=
  p = root || strStartsWith p (root ++ "/")

/-! ## Command Executor (`POST /execute`) -/

/-- Outcome of an execute request: `executed c` records that the
handler reached `exec(c, ...)`. -/
inductive ExecOutcome where
  | badRequest
  | executed (cmd : String)
deriving DecidableEq, Repr

/-- The `POST /execute` handler (server.js lines 318-331, and the
identical src/index.js handler): `if (!command) return 400` before any
`exec`; a missing command is `none`, and the empty string is falsy. -/
def executeRoute (command : Option String) : ExecOutcome :=
  match command with
  | none => .badRequest
  | some c => if c = "" then .badRequest else .executed c

/-! ## Status Aggregator (`GET /status`, server.js lines 684-927) -/

/-- Result of `getMemoryDetails`'s regex scrape of `/proc/meminfo`. -/
structure MemDetails where
  memFree : Nat
  swapFree : Nat
deriving DecidableEq, Repr

/-- `getMemoryDetails` (lines 391-400): the body may throw (modelled as
the `Except` input); the catch branch returns `{ memFree: 0, swapFree: 0 }`. -/
def getMemoryDetails (body : Except Unit MemDetails) : MemDetails :=
  match body with
  | .ok v => v
  | .error _ => ⟨0, 0⟩

/-- One per-mount record produced by `getDiskDetails`'s `df -h` parse. -/
structure FsRecord where
  filesystem : String
  blocks : String
  used : String
  available : String
  capacity : String
  mountpoint : String
  isEFS : Bool
deriving DecidableEq, Repr

/-- `getDiskDetails` (lines 402-433): the catch branch returns `[]`. -/
def getDiskDetails (body : Except Unit (List FsRecord)) : List FsRecord :=
  match body with
  | .ok v => v
  | .error _ => []

/-- Result of `getOSDetails`'s read of `/etc/os-release`. -/
structure OSDetails where
  name : String
  version : String
  isAmazonLinux : Bool
  isLatest : Bool
  status : String
deriving DecidableEq, Repr

/-- The catch-branch default of `getOSDetails` (lines 474-482). -/
def osUnknown : OSDetails :=
  ⟨"Unknown", "Unknown", false, false, "unknown"⟩

/-- `getOSDetails` (lines 455-483): the catch branch returns the
all-unknown record. -/
def getOSDetails (body : Except Unit OSDetails) : OSDetails :=
  match body with
  | .ok v => v
  | .error _ => osUnknown

/-- One entry of `getServiceStatus`'s `services` array (fields beyond
these identify the record; the shell-derived metrics are opaque here). -/
structure ServiceEntry where
  name : String
  status : String
  version : String
deriving DecidableEq, Repr

/-- One entry of `getServiceStatus`'s `topProcesses` array. -/
structure ProcEntry where
  pid : String
  ppid : String
  cmd : String
deriving DecidableEq, Repr

/-- The value returned by `getServiceStatus`. -/
structure ServiceStatusResult where
  services : List ServiceEntry
  topProcesses : List ProcEntry
deriving DecidableEq, Repr

/-- `getServiceStatus` (lines 576-681): the outer catch branch returns
`{ services: [], topProcesses: [] }`. -/
def getServiceStatus (body : Except Unit ServiceStatusResult) :
    ServiceStatusResult :=
  match body with
  | .ok v => v
  | .error _ => ⟨[], []⟩

/-- Result of the `check-disk-space` library call on `/`. -/
structure DiskSpace where
  size : Nat
  free : Nat
deriving DecidableEq, Repr

/-- The JSON snapshot assembled by the `/status` route, restricted to
the fields the embedding models (live-environment scalars such as
hostname, CPU count and load averages are read straight from `os` and
carry no logic). -/
structure StatusJson where
  osInfo : OSDetails
  memDetails : MemDetails
  diskTotal : Nat
  diskFree : Nat
  diskUsed : Nat
  filesystems : List FsRecord
  queues : List QueueRecord
  totalQueueFiles : Option Nat
  services : List ServiceEntry
  topProcesses : List ProcEntry
deriving DecidableEq, Repr

/-- The `GET /status` route (lines 684-927): `await checkDiskSpace('/')`
is the only awaited call not wrapped in its own try/catch, so its
rejection is caught by the route's catch and becomes the 500 response;
every helper collector swallows its own failure.  `totalQueueFiles`
reads the non-existent `totals.total` key. -/
def statusRoute (diskSpace : Except Unit DiskSpace)
    (mem : Except Unit MemDetails) (disk : Except Unit (List FsRecord))
    (cfgs : List QueueConfig) (readdir : String → Option (List String))
    (stat : String → Option Nat) (osd : Except Unit OSDetails)
    (svc : Except Unit ServiceStatusResult) : Except Nat StatusJson :=
  match diskSpace with
  | .error _ => .error 500
  | .ok ds =>
    let memD := getMemoryDetails mem
    let diskD := getDiskDetails disk
    let qs := getQueueStatus cfgs readdir stat
    let osD := getOSDetails osd
    let svcD := getServiceStatus svc
    .ok { osInfo := osD,
          memDetails := memD,
          diskTotal := ds.size,
          diskFree := ds.free,
          diskUsed := ds.size - ds.free,
          filesystems := diskD,
          queues := qs.queues,
          totalQueueFiles := totalsLookup qs.totals "total",
          services := svcD.services,
          topProcesses := svcD.topProcesses }

/-- The record pushed for a queue whose `readdir` was rejected: the
`.catch(() => [])` turns the listing into `[]`, so the record is the
all-zero healthy one, still with `qexists = true`. -/
def zeroHealthyRecord (cfg : QueueConfig) : QueueRecord :=
  { path := cfg.path,
    qexists := true,
    countsXml := 0,
    countsPdf := 0,
    countsTotal := 0,
    oldestFile := none,
    thresholds := cfg.thresholds,
    status := .healthy }

/-! ## Helper lemmas -/

/-- The source's status ternary and the spec's tier table coincide. -/
lemma queueHealthStatus_eq_specHealthTier (n t0 t1 t2 : Nat) :
    queueHealthStatus n t0 t1 t2 = specHealthTier n t0 t1 t2 := rfl

/-- The empty needle is contained in every haystack (JS
`s.includes('')` is always true). -/
lemma strContains_empty (line : String) : strContains line "" = true := by
  unfold strContains
  rw [List.any_eq_true]
  exact ⟨0, by simp, rfl⟩

/-! ## Claim theorems -/

/-- C1: for every monitored queue directory, given its file count `n`
(number of matched `.xml` plus `.pdf` entries of the listing) and its
configured ascending threshold triple, `getQueueStatus` assigns exactly
the spec's health tier: `healthy` if `n = 0`, else `dead` if `n ≥ t3`,
else `sick` if `n ≥ t2`, else `tired` if `n ≥ t1`, else `healthy`. -/
theorem getQueueStatus_tier_spec (cfg : QueueConfig)
    (readdir : String → Option (List String)) (stat : String → Option Nat)
    (listing : List String) (h : readdir cfg.path = some listing) :
    (processQueue cfg readdir stat).status =
      specHealthTier
        ((listing.filter (fun f => strEndsWith f ".xml")).length +
          (listing.filter (fun f => strEndsWith f ".pdf")).length)
        cfg.thresholds.files0 cfg.thresholds.files1 cfg.thresholds.files2 := by
  have hq : (processQueue cfg readdir stat).status =
      queueHealthStatus
        ((listing.filter (fun f => strEndsWith f ".xml")).length +
          (listing.filter (fun f => strEndsWith f ".pdf")).length)
        cfg.thresholds.files0 cfg.thresholds.files1 cfg.thresholds.files2 := by
    simp only [processQueue, h, Option.getD_some, List.length_append]
  rw [hq, queueHealthStatus_eq_specHealthTier]

/-- Witness for C1: a queue with two matched files among three entries
and thresholds `[2,5,10]` is classified `tired`. -/
theorem getQueueStatus_tier_spec_witness :
    (processQueue ⟨"/q", ⟨2, 5, 10, 0, 0, 0⟩⟩
        (fun _ => some ["a.xml", "b.pdf", "c.txt"]) (fun _ => some 5)).status =
      specHealthTier
        (((["a.xml", "b.pdf", "c.txt"] : List String).filter
            (fun f => strEndsWith f ".xml")).length +
          ((["a.xml", "b.pdf", "c.txt"] : List String).filter
            (fun f => strEndsWith f ".pdf")).length) 2 5 10 :=
  getQueueStatus_tier_spec ⟨"/q", ⟨2, 5, 10, 0, 0, 0⟩⟩
    (fun _ => some ["a.xml", "b.pdf", "c.txt"]) (fun _ => some 5)
    ["a.xml", "b.pdf", "c.txt"] rfl

/-- C5: for counts `n ≤ m` and ascending thresholds, the classification
of `m` is at least as severe as that of `n` under
`healthy < tired < sick < dead`. -/
theorem queue_tier_monotone (n m t0 t1 t2 : Nat) (hnm : n ≤ m)
    (h01 : t0 ≤ t1) (h12 : t1 ≤ t2) :
    sevRank (queueHealthStatus n t0 t1 t2) ≤
      sevRank (queueHealthStatus m t0 t1 t2) := by
  unfold queueHealthStatus
  split_ifs <;> simp [sevRank] <;> omega

/-- Witness for C5: counts 1 ≤ 5 against thresholds `[2,3,4]`. -/
theorem queue_tier_monotone_witness :
    sevRank (queueHealthStatus 1 2 3 4) ≤ sevRank (queueHealthStatus 5 2 3 4) :=
  queue_tier_monotone 1 5 2 3 4 (by decide) (by decide) (by decide)

/-- C7: a missing or empty `command` yields the 400 outcome and the
handler never reaches `exec`. -/
theorem execute_missing_command :
    executeRoute none = .badRequest ∧ executeRoute (some "") = .badRequest ∧
    (∀ cmd, executeRoute none ≠ .executed cmd) ∧
    (∀ cmd, executeRoute (some "") ≠ .executed cmd) := by
  refine ⟨rfl, rfl, ?_, ?_⟩ <;> intro cmd hcon <;> simp [executeRoute] at hcon

/-- C8: every record produced by the normal path of `getQueueStatus`
has `exists = true`; a rejected `readdir` is absorbed by
`.catch(() => [])`, so such a directory is reported existing, with zero
counts and status `healthy` — the `exists = false` / `unknown` branch
is not reachable from a `readdir` failure. -/
theorem queue_record_exists_invariant :
    (∀ cfg readdir stat, (processQueue cfg readdir stat).qexists = true) ∧
    (∀ cfg stat, processQueue cfg (fun _ => none) stat = zeroHealthyRecord cfg) := by
  exact ⟨fun _ _ _ => rfl, fun _ _ => rfl⟩

/-- C9: the raw `startsWith` containment test of the src/index.js
edit-file handler is bypassed by a path resolving to a sibling
directory whose absolute path extends the root as a string prefix: with
root `/tmp/edit`, the path `../editable/f` resolves to
`/tmp/editable/f`, is outside the root, passes the check and is
written. -/
theorem edit_file_prefix_bypass :
    indexEditFile "/tmp/edit" (some "../editable/f") (some "x") =
      .written "/tmp/editable/f" "x" ∧
    specResolvedWithin "/tmp/edit" "/tmp/editable/f" = false := by decide

/-- C3 (divergence): the server.js edit-file handler has no containment
check at all — `../outside.txt` against root `/data/edit` resolves
outside the root, yet the handler writes it and succeeds, where the
spec requires the 403 `AccessDenied` outcome (which the src/index.js
variant does produce here). -/
theorem edit_file_escape_divergence :
    serverEditFile "/data/edit" (some "../outside.txt") (some "x") =
      .written "/data/outside.txt" "x" ∧
    specResolvedWithin "/data/edit" "/data/outside.txt" = false ∧
    indexEditFile "/data/edit" (some "../outside.txt") (some "x") =
      .accessDenied := by decide

/-- C10: every JSON response of `GET /status` omits `totalQueueFiles`:
the handler reads `totals.total`, a key the `totals` object never has. -/
theorem status_totalQueueFiles_absent (ds : DiskSpace)
    (mem : Except Unit MemDetails) (disk : Except Unit (List FsRecord))
    (cfgs : List QueueConfig) (readdir : String → Option (List String))
    (stat : String → Option Nat) (osd : Except Unit OSDetails)
    (svc : Except Unit ServiceStatusResult) :
    ∃ snap, statusRoute (.ok ds) mem disk cfgs readdir stat osd svc = .ok snap ∧
      snap.totalQueueFiles = none :=
  ⟨_, rfl, rfl⟩

/-- C2 (counterexample): the tail filter is not case-insensitive on the
line side — the line `"error b"` contains the filter token `"ERROR"`
under case-insensitive comparison, yet the session with that filter
does not forward it, because only the filter is upper-cased and
`data.includes(logLevel)` is case-sensitive. -/
theorem tail_filter_case_sensitive_cex :
    specContainsCaseInsensitive "error b" "ERROR" = true ∧
    shouldForward (some "ERROR") "error b" = false ∧
    tailMessages (some "ERROR") ["error b"] = [] := by decide

/-- C2 (amended): with a filter set, a line is forwarded iff it
contains the upper-cased filter token as a case-sensitive substring;
with no filter, every line is forwarded; and for the lines
`["INFO a","ERROR b","INFO c"]` with filter `"ERROR"` exactly one
message is sent, for `"ERROR b"`. -/
theorem tail_filter_amended :
    (∀ line lvl, shouldForward (some lvl) line =
      strContains line (jsToUpper lvl)) ∧
    (∀ line, shouldForward none line = true) ∧
    tailMessages (some "ERROR") ["INFO a", "ERROR b", "INFO c"] =
      [⟨"ERROR b", "ERROR"⟩] := by
  refine ⟨?_, fun _ => rfl, by decide⟩
  intro line lvl
  show (if jsToUpper lvl = "" then true else strContains line (jsToUpper lvl)) =
    strContains line (jsToUpper lvl)
  by_cases h : jsToUpper lvl = ""
  · rw [if_pos h, h, strContains_empty]
  · rw [if_neg h]

/-- C4: each wrapped collector of the status aggregator fails
independently — when exactly one of the memory, disk-detail, OS,
service or queue collectors fails, `GET /status` still answers 200
with only that collector's field at its documented default and every
other modelled field populated from its collector's value. -/
theorem status_partial_failure :
    (∀ (ds : DiskSpace) (dv : List FsRecord) (cfgs : List QueueConfig)
        (rd : String → Option (List String)) (st : String → Option Nat)
        (ov : OSDetails) (sv : ServiceStatusResult),
      ∃ snap, statusRoute (.ok ds) (.error ()) (.ok dv) cfgs rd st
          (.ok ov) (.ok sv) = .ok snap ∧
        snap.memDetails = ⟨0, 0⟩ ∧ snap.filesystems = dv ∧ snap.osInfo = ov ∧
        snap.services = sv.services ∧ snap.topProcesses = sv.topProcesses ∧
        snap.diskTotal = ds.size ∧ snap.diskFree = ds.free ∧
        snap.queues = (getQueueStatus cfgs rd st).queues) ∧
    (∀ (ds : DiskSpace) (mv : MemDetails) (cfgs : List QueueConfig)
        (rd : String → Option (List String)) (st : String → Option Nat)
        (ov : OSDetails) (sv : ServiceStatusResult),
      ∃ snap, statusRoute (.ok ds) (.ok mv) (.error ()) cfgs rd st
          (.ok ov) (.ok sv) = .ok snap ∧
        snap.filesystems = [] ∧ snap.memDetails = mv ∧ snap.osInfo = ov ∧
        snap.services = sv.services ∧ snap.diskTotal = ds.size ∧
        snap.queues = (getQueueStatus cfgs rd st).queues) ∧
    (∀ (ds : DiskSpace) (mv : MemDetails) (dv : List FsRecord)
        (cfgs : List QueueConfig) (rd : String → Option (List String))
        (st : String → Option Nat) (sv : ServiceStatusResult),
      ∃ snap, statusRoute (.ok ds) (.ok mv) (.ok dv) cfgs rd st
          (.error ()) (.ok sv) = .ok snap ∧
        snap.osInfo = osUnknown ∧ snap.memDetails = mv ∧
        snap.filesystems = dv ∧ snap.services = sv.services ∧
        snap.diskTotal = ds.size ∧
        snap.queues = (getQueueStatus cfgs rd st).queues) ∧
    (∀ (ds : DiskSpace) (mv : MemDetails) (dv : List FsRecord)
        (cfgs : List QueueConfig) (rd : String → Option (List String))
        (st : String → Option Nat) (ov : OSDetails),
      ∃ snap, statusRoute (.ok ds) (.ok mv) (.ok dv) cfgs rd st
          (.ok ov) (.error ()) = .ok snap ∧
        snap.services = [] ∧ snap.topProcesses = [] ∧ snap.memDetails = mv ∧
        snap.filesystems = dv ∧ snap.osInfo = ov ∧ snap.diskTotal = ds.size ∧
        snap.queues = (getQueueStatus cfgs rd st).queues) ∧
    (∀ (ds : DiskSpace) (mv : MemDetails) (dv : List FsRecord)
        (cfg : QueueConfig) (st : String → Option Nat) (ov : OSDetails)
        (sv : ServiceStatusResult),
      ∃ snap, statusRoute (.ok ds) (.ok mv) (.ok dv) [cfg] (fun _ => none) st
          (.ok ov) (.ok sv) = .ok snap ∧
        snap.queues = [zeroHealthyRecord cfg] ∧ snap.memDetails = mv ∧
        snap.filesystems = dv ∧ snap.osInfo = ov ∧
        snap.services = sv.services ∧ snap.diskTotal = ds.size) := by
  refine ⟨?_, ?_, ?_, ?_, ?_⟩ <;> intros <;> refine ⟨_, rfl, ?_⟩ <;>
    and_intros <;> rfl

/-- A failing `stat` leaves the best-so-far unchanged. -/
lemma stepOldest_none (f : String) (acc : Option OldestFile) :
    stepOldest f none acc = acc := rfl

/-- A successful `stat` always leaves some best-so-far. -/
lemma stepOldest_isSome (f : String) (ct : Nat) (acc : Option OldestFile) :
    (stepOldest f (some ct) acc).isSome := by
  rcases acc with _ | a
  · rfl
  · simp only [stepOldest]
    split <;> rfl

/-- A `some` best-so-far can never fall back to `none`. -/
lemma stepOldest_some_isSome (f : String) (c : Option Nat) (a : OldestFile) :
    (stepOldest f c (some a)).isSome := by
  rcases c with _ | ct
  · rfl
  · exact stepOldest_isSome f ct (some a)

/-- After a successful `stat`, the best-so-far is bounded by the new
`ctime` and by whatever it was before. -/
lemma stepOldest_created_le (f : String) (ct : Nat) (acc : Option OldestFile)
    (b : OldestFile) (h : stepOldest f (some ct) acc = some b) :
    b.created ≤ ct ∧ ∀ a, acc = some a → b.created ≤ a.created := by
  rcases acc with _ | a
  · simp only [stepOldest] at h
    cases h
    exact ⟨Nat.le_refl _, by intro a ha; cases ha⟩
  · simp only [stepOldest] at h
    by_cases hlt : ct < a.created
    · rw [if_pos hlt] at h
      cases h
      exact ⟨Nat.le_refl _, by intro a2 ha; cases ha; exact Nat.le_of_lt hlt⟩
    · rw [if_neg hlt] at h
      cases h
      exact ⟨Nat.le_of_not_lt hlt, by intro a2 ha; cases ha; exact Nat.le_refl _⟩

/-- The best-so-far is either unchanged or the record of the stepped
file. -/
lemma stepOldest_cases (f : String) (c : Option Nat) (acc : Option OldestFile)
    (b : OldestFile) (h : stepOldest f c acc = some b) :
    acc = some b ∨ (c = some b.created ∧ b = mkOldest f b.created) := by
  rcases c with _ | ct
  · rw [stepOldest_none] at h
    exact Or.inl h
  · rcases acc with _ | a
    · simp only [stepOldest] at h
      cases h
      exact Or.inr ⟨rfl, rfl⟩
    · simp only [stepOldest] at h
      by_cases hlt : ct < a.created
      · rw [if_pos hlt] at h
        cases h
        exact Or.inr ⟨rfl, rfl⟩
      · rw [if_neg hlt] at h
        exact Or.inl h

/-- A `some` accumulator can only stay `some` through the loop. -/
lemma findOldestAux_isRemembered (stat : String → Option Nat) (qp : String) :
    ∀ (files : List String) (a : OldestFile),
      (findOldestAux stat qp (some a) files).isSome := by
  intro files
  induction files with
  | nil => intro a; rfl
  | cons f rest ih =>
    intro a
    simp only [findOldestAux]
    rcases hx : stepOldest f (stat (pathJoin qp f)) (some a) with _ | b
    · have hs := stepOldest_some_isSome f (stat (pathJoin qp f)) a
      rw [hx] at hs
      exact absurd hs (by simp)
    · exact ih b

/-- If the loop returns `null`, it started from `null` and every `stat`
failed. -/
lemma findOldestAux_eq_none (stat : String → Option Nat) (qp : String) :
    ∀ (files : List String) (acc : Option OldestFile),
      findOldestAux stat qp acc files = none →
      acc = none ∧ ∀ f ∈ files, stat (pathJoin qp f) = none := by
  intro files
  induction files with
  | nil =>
    intro acc h
    simp only [findOldestAux] at h
    exact ⟨h, by simp⟩
  | cons f rest ih =>
    intro acc h
    simp only [findOldestAux] at h
    rcases hstat : stat (pathJoin qp f) with _ | ct
    · rw [hstat, stepOldest_none] at h
      obtain ⟨hacc, hrest⟩ := ih _ h
      refine ⟨hacc, ?_⟩
      intro g hg
      rcases List.mem_cons.mp hg with hg | hg
      · rw [hg]
        exact hstat
      · exact hrest g hg
    · rw [hstat] at h
      exfalso
      have hs := stepOldest_isSome f ct acc
      rcases hx : stepOldest f (some ct) acc with _ | b
      · rw [hx] at hs
        exact absurd hs (by simp)
      · rw [hx] at h
        have hrem := findOldestAux_isRemembered stat qp rest b
        rw [h] at hrem
        exact absurd hrem (by simp)

/-- The loop's answer is a lower bound of every successful `stat` and
of the accumulator it started from. -/
lemma findOldestAux_min (stat : String → Option Nat) (qp : String) :
    ∀ (files : List String) (acc : Option OldestFile) (o : OldestFile),
      findOldestAux stat qp acc files = some o →
      (∀ f ∈ files, ∀ ct, stat (pathJoin qp f) = some ct → o.created ≤ ct) ∧
      (∀ a, acc = some a → o.created ≤ a.created) := by
  intro files
  induction files with
  | nil =>
    intro acc o h
    simp only [findOldestAux] at h
    refine ⟨by simp, ?_⟩
    intro a ha
    rw [h] at ha
    cases ha
    exact Nat.le_refl _
  | cons f rest ih =>
    intro acc o h
    simp only [findOldestAux] at h
    rcases hstat : stat (pathJoin qp f) with _ | ct
    · rw [hstat, stepOldest_none] at h
      obtain ⟨hrest, hacc⟩ := ih _ _ h
      refine ⟨?_, hacc⟩
      intro g hg ct' hst
      rcases List.mem_cons.mp hg with hg | hg
      · rw [hg, hstat] at hst
        cases hst
      · exact hrest g hg ct' hst
    · rw [hstat] at h
      rcases hx : stepOldest f (some ct) acc with _ | b
      · have hs := stepOldest_isSome f ct acc
        rw [hx] at hs
        exact absurd hs (by simp)
      · rw [hx] at h
        obtain ⟨hrest, hb⟩ := ih _ _ h
        have hob : o.created ≤ b.created := hb b rfl
        obtain ⟨hbct, hbacc⟩ := stepOldest_created_le f ct acc b hx
        refine ⟨?_, ?_⟩
        · intro g hg ct' hst
          rcases List.mem_cons.mp hg with hg | hg
          · rw [hg, hstat] at hst
            cases hst
            exact Nat.le_trans hob hbct
          · exact hrest g hg ct' hst
        · intro a ha
          exact Nat.le_trans hob (hbacc a ha)

/-- The loop's answer is either the starting accumulator or the record
of one of the walked files. -/
lemma findOldestAux_mem (stat : String → Option Nat) (qp : String) :
    ∀ (files : List String) (acc : Option OldestFile) (o : OldestFile),
      findOldestAux stat qp acc files = some o →
      acc = some o ∨
        ∃ f ∈ files, stat (pathJoin qp f) = some o.created ∧
          o = mkOldest f o.created := by
  intro files
  induction files with
  | nil =>
    intro acc o h
    simp only [findOldestAux] at h
    exact Or.inl h
  | cons f rest ih =>
    intro acc o h
    simp only [findOldestAux] at h
    rcases hstat : stat (pathJoin qp f) with _ | ct
    · rw [hstat, stepOldest_none] at h
      rcases ih _ _ h with hb | ⟨g, hg, hgst, hgmk⟩
      · exact Or.inl hb
      · exact Or.inr ⟨g, List.mem_cons_of_mem f hg, hgst, hgmk⟩
    · rw [hstat] at h
      rcases hx : stepOldest f (some ct) acc with _ | b
      · have hs := stepOldest_isSome f ct acc
        rw [hx] at hs
        exact absurd hs (by simp)
      · rw [hx] at h
        rcases ih _ _ h with hb | ⟨g, hg, hgst, hgmk⟩
        · cases hb
          rcases stepOldest_cases f (some ct) acc o hx with hl | ⟨hc, hmk⟩
          · exact Or.inl hl
          · exact Or.inr ⟨f, List.mem_cons_self f rest, hstat.trans hc, hmk⟩
        · exact Or.inr ⟨g, List.mem_cons_of_mem f hg, hgst, hgmk⟩

/-- Days branch of `formatAge`: fires exactly when the age reaches one
day, and `floor(diff/60000)/60/24 = floor(diff/86400000)`. -/
lemma formatAge_days (nowMs createdMs : Nat)
    (h : 86400000 ≤ nowMs - createdMs) :
    formatAge nowMs createdMs =
      toString ((nowMs - createdMs) / 86400000) ++ "d" := by
  have key : (nowMs - createdMs) / 60000 / 60 / 24 =
      (nowMs - createdMs) / 86400000 := by
    rw [Nat.div_div_eq_div_mul, Nat.div_div_eq_div_mul]
  simp only [formatAge, key]
  rw [if_pos (Nat.div_pos h (by norm_num))]

/-- Hours branch of `formatAge`: fires when the age is at least one
hour but under a day. -/
lemma formatAge_hours (nowMs createdMs : Nat)
    (h1 : 3600000 ≤ nowMs - createdMs) (h2 : nowMs - createdMs < 86400000) :
    formatAge nowMs createdMs =
      toString ((nowMs - createdMs) / 3600000) ++ "h" := by
  have keyh : (nowMs - createdMs) / 60000 / 60 = (nowMs - createdMs) / 3600000 := by
    rw [Nat.div_div_eq_div_mul]
  have keyd : (nowMs - createdMs) / 3600000 / 24 = (nowMs - createdMs) / 86400000 := by
    rw [Nat.div_div_eq_div_mul]
  simp only [formatAge, keyh, keyd]
  rw [if_neg (by simp [Nat.div_eq_of_lt h2]), if_pos (Nat.div_pos h1 (by norm_num))]

/-- Minutes branch of `formatAge`: fires when the age is under an hour. -/
lemma formatAge_minutes (nowMs createdMs : Nat)
    (h : nowMs - createdMs < 3600000) :
    formatAge nowMs createdMs =
      toString ((nowMs - createdMs) / 60000) ++ "m" := by
  have keyh : (nowMs - createdMs) / 60000 / 60 = (nowMs - createdMs) / 3600000 := by
    rw [Nat.div_div_eq_div_mul]
  simp only [formatAge, keyh]
  rw [if_neg (by simp [Nat.div_eq_of_lt h]), if_neg (by simp [Nat.div_eq_of_lt h])]

/-- C6: for a monitored directory with a non-empty set of matched files
whose `stat`s all succeed, the reported oldest file is one of the
matched files and its creation timestamp is the minimum over all of
them; and the age `now - created` is formatted in the largest
applicable unit — days if at least one day, else hours if at least one
hour, else minutes. -/
theorem oldest_file_min_age (qp : String) (stat : String → Option Nat)
    (files : List String) (nowMs createdMs : Nat) (hne : files ≠ [])
    (hall : ∀ f ∈ files, stat (pathJoin qp f) ≠ none) :
    (∃ o, findOldest stat qp files = some o ∧
      (∃ f ∈ files, stat (pathJoin qp f) = some o.created ∧
        o = mkOldest f o.created) ∧
      (∀ f ∈ files, ∀ ct, stat (pathJoin qp f) = some ct → o.created ≤ ct)) ∧
    (86400000 ≤ nowMs - createdMs →
      formatAge nowMs createdMs =
        toString ((nowMs - createdMs) / 86400000) ++ "d") ∧
    (3600000 ≤ nowMs - createdMs → nowMs - createdMs < 86400000 →
      formatAge nowMs createdMs =
        toString ((nowMs - createdMs) / 3600000) ++ "h") ∧
    (nowMs - createdMs < 3600000 →
      formatAge nowMs createdMs =
        toString ((nowMs - createdMs) / 60000) ++ "m") := by
  refine ⟨?_, fun h => formatAge_days _ _ h,
    fun h1 h2 => formatAge_hours _ _ h1 h2, fun h => formatAge_minutes _ _ h⟩
  have hlen : files.length > 0 := by
    cases files with
    | nil => exact absurd rfl hne
    | cons f rest => simp
  have hrun : findOldest stat qp files = findOldestAux stat qp none files := by
    unfold findOldest
    rw [if_pos hlen]
  rcases hres : findOldestAux stat qp none files with _ | o
  · exfalso
    obtain ⟨-, hnone⟩ := findOldestAux_eq_none stat qp files none hres
    cases files with
    | nil => exact absurd rfl hne
    | cons f rest =>
      exact absurd (hnone f (List.mem_cons_self f rest))
        (hall f (List.mem_cons_self f rest))
  · refine ⟨o, by rw [hrun, hres], ?_,
      (findOldestAux_min stat qp files none o hres).1⟩
    rcases findOldestAux_mem stat qp files none o hres with hc | hmem
    · cases hc
    · exact hmem

/-- Witness for C6: one matched file with `stat` timestamp 5 and an age
of 90000000 ms (just over a day). -/
theorem oldest_file_min_age_witness :
    (∃ o, findOldest (fun _ => some 5) "/q" ["a.xml"] = some o ∧
      (∃ f ∈ (["a.xml"] : List String), some 5 = some o.created ∧
        o = mkOldest f o.created) ∧
      (∀ f ∈ (["a.xml"] : List String), ∀ ct, (some 5 : Option Nat) = some ct →
        o.created ≤ ct)) ∧
    (86400000 ≤ 90000000 - 0 →
      formatAge 90000000 0 = toString ((90000000 - 0) / 86400000) ++ "d") ∧
    (3600000 ≤ 90000000 - 0 → 90000000 - 0 < 86400000 →
      formatAge 90000000 0 = toString ((90000000 - 0) / 3600000) ++ "h") ∧
    (90000000 - 0 < 3600000 →
      formatAge 90000000 0 = toString ((90000000 - 0) / 60000) ++ "m") :=
  oldest_file_min_age "/q" (fun _ => some 5) ["a.xml"] 90000000 0
    (by decide) (fun f _ => by simp)
